import Mathlib

/-!
Formal model of the player-evaluation dashboard
(src/player_evaluation_app.py): the sidebar filter pipeline, the
rankings-table ordering, the tracking statistics engine, the heat-map
zone metrics, the draft-pick formatter and the comparison-table
highlighter, together with theorems about their behaviour.

Missing (NaN) values are modelled as `Option.none`; a pandas dataframe
becomes a list of rows plus column-presence flags.
-/

/-- `CATEGORY_ORDER` from the source: the fixed category display order. -/
def CATEGORY_ORDER : List String :=
  ["Elite", "Producer", "Prospect", "Riser", "Risk", "Developmental"]

/-- One row of the prospect rankings table.  `none` models a missing
(NaN) value in the corresponding column. -/
structure Prospect where
  player_id : Nat
  position : String
  player_category : String
  draft_season : Option Int
  draft_round : Option Int
  draft_overall_selection : Option Int
  RAS : Option ℚ
  composite_rank : Option ℚ
  athletic_potential_rank : Option ℚ
  college_production_rank : Option ℚ
  nfl_production_rank : Option ℚ
deriving DecidableEq, Repr

/-- Position radio filter: "All" applies no filter. -/
def applyPosition (pos : String) (l : List Prospect) : List Prospect :=
  if pos = "All" then l else l.filter (fun r => r.position == pos)

/-- `rankings_df['player_category'].unique().tolist()`. -/
def allCategoriesInData (l : List Prospect) : List String :=
  (l.map (·.player_category)).dedup

/-- The category options offered by the sidebar: the known categories
present in the data, falling back to all data categories when none of
the known ones occurs. -/
def availableCategories (l : List Prospect) : List String :=
  let avail := CATEGORY_ORDER.filter (fun c => (allCategoriesInData l).contains c)
  if avail = [] then allCategoriesInData l else avail

/-- Category multiselect: a non-empty selection filters by membership,
an empty selection applies no filter at all. -/
def applyCategory (sel : List String) (l : List Prospect) : List Prospect :=
  if sel = [] then l else l.filter (fun r => sel.contains r.player_category)

/-- `sorted(filtered_df['draft_season'].dropna().unique())` (as a set;
only membership and cardinality matter here). -/
def distinctYears (l : List Prospect) : List Int :=
  (l.filterMap (·.draft_season)).dedup

/-- The draft-year slider is only shown, hence only applied, when more
than one distinct year exists. -/
def yearFilterActive (l : List Prospect) : Prop :=
  1 < (distinctYears l).length

instance (l : List Prospect) : Decidable (yearFilterActive l) :=
  inferInstanceAs (Decidable (1 < (distinctYears l).length))

/-- Draft-year range filter; a missing season fails both comparisons,
so it is excluded whenever the filter is applied. -/
def applyYear (yr : Int × Int) (l : List Prospect) : List Prospect :=
  if yearFilterActive l then
    l.filter (fun r =>
      match r.draft_season with
      | some y => decide (yr.1 ≤ y) && decide (y ≤ yr.2)
      | none => false)
  else l

/-- RAS range filter: `(RAS >= lo) & (RAS <= hi) | RAS.isna()`, so a
missing RAS is always retained. -/
def applyRAS (rr : ℚ × ℚ) (l : List Prospect) : List Prospect :=
  l.filter (fun r =>
    match r.RAS with
    | some v => decide (rr.1 ≤ v) && decide (v ≤ rr.2)
    | none => true)

/-- The module-level sidebar filter pipeline: position, then category,
then draft year, then RAS. -/
def filter_pipeline (full : List Prospect) (pos : String) (sel : List String)
    (yr : Int × Int) (rr : ℚ × ℚ) : List Prospect :=
  applyRAS rr (applyYear yr (applyCategory sel (applyPosition pos full)))

/-- `CATEGORY_ORDER.index(x)` with 99 for categories not in the list. -/
def categoryOrderIdx (c : String) : Nat :=
  match CATEGORY_ORDER.findIdx? (fun s => s == c) with
  | some i => i
  | none => 99

/-- The five options of the rankings-tab "Sort By" selector. -/
inductive SortKey where
  | compositeRank
  | ras
  | athleticRank
  | collegeRank
  | nflRank
deriving DecidableEq, Repr

/-- `sort_values(..., ascending=True)` comparison on an optional column
value; missing values sort last (`na_position='last'`). -/
def optLeB (a b : Option ℚ) : Bool :=
  match a, b with
  | some x, some y => decide (x ≤ y)
  | some _, none => true
  | none, some _ => false
  | none, none => true

/-- `sort_values(..., ascending=False)` comparison; missing values
still sort last. -/
def optGeB (a b : Option ℚ) : Bool :=
  match a, b with
  | some x, some y => decide (y ≤ x)
  | some _, none => true
  | none, some _ => false
  | none, none => true

/-- The `sort_map` of the rankings tab: each sort key is paired with a
fixed direction (RAS is the only descending one). -/
def keyLeB (k : SortKey) (a b : Prospect) : Bool :=
  match k with
  | .compositeRank => optLeB a.composite_rank b.composite_rank
  | .ras => optGeB a.RAS b.RAS
  | .athleticRank => optLeB a.athletic_potential_rank b.athletic_potential_rank
  | .collegeRank => optLeB a.college_production_rank b.college_production_rank
  | .nflRank => optLeB a.nfl_production_rank b.nfl_production_rank

/-- The sort relation chosen in the rankings tab. -/
def keyRel (k : SortKey) (a b : Prospect) : Prop := keyLeB k a b = true

instance (k : SortKey) : DecidableRel (keyRel k) := fun a b =>
  inferInstanceAs (Decidable (keyLeB k a b = true))

/-- `create_great_table`'s own ordering key: category display order
first (unknown categories as 99), then composite rank (the `Overall`
column) ascending with missing ranks last. -/
def gtLeB (a b : Prospect) : Bool :=
  if categoryOrderIdx a.player_category < categoryOrderIdx b.player_category then true
  else if categoryOrderIdx b.player_category < categoryOrderIdx a.player_category then false
  else optLeB a.composite_rank b.composite_rank

/-- Relation form of `gtLeB`. -/
def gtRel (a b : Prospect) : Prop := gtLeB a b = true

instance : DecidableRel gtRel := fun a b =>
  inferInstanceAs (Decidable (gtLeB a b = true))

/-- The row order produced by `create_great_table`
(`sort_values(['Category_Order', 'Overall'], ascending=[True, True])`). -/
def create_great_table_order (df : List Prospect) : List Prospect :=
  List.insertionSort gtRel df

/-- Rankings tab: the filtered table is first sorted by the chosen sort
key, then handed to `create_great_table`, which re-sorts it. -/
def rankings_table_rows (k : SortKey) (df : List Prospect) : List Prospect :=
  create_great_table_order (List.insertionSort (keyRel k) df)

/-- One tracking frame; timestamps are modelled as rational seconds. -/
structure Frame where
  ts : Option ℚ
  x : Option ℚ
  y : Option ℚ
  s : Option ℚ
  a : Option ℚ
  dis : Option ℚ
  dir : Option ℚ
  play1 : Option Int
  play2 : Option Int
deriving DecidableEq, Repr

/-- A tracking dataframe: rows plus column-presence flags (`play1` is
the 'play_id' column, `play2` the alternate 'playId' convention). -/
structure TrackingDF where
  rows : List Frame
  hasTs : Bool
  hasX : Bool
  hasY : Bool
  hasS : Bool
  hasA : Bool
  hasDis : Bool
  hasDir : Bool
  hasPlay1 : Bool
  hasPlay2 : Bool
deriving DecidableEq, Repr

/-- `Series.max()` of a (guarded non-empty) list; 0 is never reached. -/
def listMax : List ℚ → ℚ
  | [] => 0
  | x :: xs => xs.foldl max x

/-- `Series.min()` of a (guarded non-empty) list. -/
def listMin : List ℚ → ℚ
  | [] => 0
  | x :: xs => xs.foldl min x

/-- `Series.mean()`. -/
def listMean (l : List ℚ) : ℚ := l.sum / l.length

/-- `Series.nunique()`: distinct non-missing values. -/
def nunique (l : List (Option Int)) : Nat := (l.filterMap id).dedup.length

/-- The wraparound delta the code applies to an absolute heading diff:
`min(x, 360 - x)` with `x = |d2 - d1|`. -/
def circDelta (d1 d2 : ℚ) : ℚ := min |d2 - d1| (360 - |d2 - d1|)

/-- Deltas above 45° between `prev` and the successive entries of a
heading series. -/
def countDirChangesFrom (prev : ℚ) : List ℚ → Nat
  | [] => 0
  | d :: rest => (if 45 < circDelta prev d then 1 else 0) + countDirChangesFrom d rest

/-- Count of deltas above 45° between consecutive entries of a heading
series (the series obtained after `dropna`, as in the code). -/
def countDirChanges : List ℚ → Nat
  | [] => 0
  | d :: rest => countDirChangesFrom d rest

/-- The statistics mapping returned by `calculate_tracking_stats`;
`none` means the key is absent from the dictionary. -/
structure Stats where
  max_speed_mph : Option ℚ := none
  avg_speed_mph : Option ℚ := none
  min_speed_mph : Option ℚ := none
  max_acceleration : Option ℚ := none
  avg_acceleration : Option ℚ := none
  total_distance : Option ℚ := none
  avg_distance_per_frame : Option ℚ := none
  total_frames : Option Nat := none
  total_time_seconds : Option ℚ := none
  play_count : Option Nat := none
  direction_changes : Option Nat := none
deriving DecidableEq, Repr

/-- `calculate_tracking_stats`: an empty dataframe returns the empty
mapping; otherwise each statistic is added only when its source column
exists and passes the code's own guard. -/
def calculate_tracking_stats (df : TrackingDF) : Stats :=
  if df.rows = [] then {} else
  let spd := df.rows.filterMap (·.s)
  let acc := df.rows.filterMap (·.a)
  let dst := df.rows.filterMap (·.dis)
  let tsv := df.rows.filterMap (·.ts)
  let dirs := df.rows.filterMap (·.dir)
  { max_speed_mph := if df.hasS = true ∧ spd ≠ [] then some (listMax spd * 2.045) else none
    avg_speed_mph := if df.hasS = true ∧ spd ≠ [] then some (listMean spd * 2.045) else none
    min_speed_mph := if df.hasS = true ∧ spd ≠ [] then some (listMin spd * 2.045) else none
    max_acceleration := if df.hasA = true ∧ acc ≠ [] then some (listMax acc) else none
    avg_acceleration := if df.hasA = true ∧ acc ≠ [] then some (listMean acc) else none
    total_distance := if df.hasDis = true ∧ dst ≠ [] then some dst.sum else none
    avg_distance_per_frame := if df.hasDis = true ∧ dst ≠ [] then some (listMean dst) else none
    total_frames := some df.rows.length
    total_time_seconds :=
      if df.hasTs = true ∧ 1 < tsv.length then some (listMax tsv - listMin tsv) else none
    play_count :=
      if df.hasPlay1 = true then some (nunique (df.rows.map (·.play1)))
      else if df.hasPlay2 = true then some (nunique (df.rows.map (·.play2)))
      else none
    direction_changes :=
      if df.hasDir = true ∧ 1 < dirs.length then some (countDirChanges dirs) else none }

/-- The caller-side display value `stats.get('direction_changes', 0)`. -/
def displayedDirectionChanges (df : TrackingDF) : Nat :=
  ((calculate_tracking_stats df).direction_changes).getD 0

/-- The same dataframe with every non-missing heading relabeled by
+360°. -/
def shiftDir (df : TrackingDF) : TrackingDF :=
  { df with rows := df.rows.map (fun r => { r with dir := r.dir.map (fun d => d + 360) }) }

/-- Modelled from the spec: the circular distance of the spec's words,
`min(|d1-d2|, 360-|d1-d2|)`. -/
def specCircDist (d1 d2 : ℚ) : ℚ := min |d1 - d2| (360 - |d1 - d2|)

/-- Spec-side deltas between `prev` and the successive frame headings;
a pair containing a missing heading contributes no delta. -/
def specDirectionChangesFrom (prev : Option ℚ) : List (Option ℚ) → Nat
  | [] => 0
  | d :: rest =>
    (match prev, d with
     | some d1, some d2 => if 45 < specCircDist d1 d2 then 1 else 0
     | _, _ => 0) + specDirectionChangesFrom d rest

/-- Modelled from the spec: the claim's count over *consecutive-frame*
heading pairs; a pair containing a missing heading contributes no
delta, and the first frame has no predecessor. -/
def specDirectionChanges : List (Option ℚ) → Nat
  | [] => 0
  | d :: rest => specDirectionChangesFrom d rest

/-- `display_tracking['x'].dropna().values` of the heat-map view. -/
def xCoords (df : TrackingDF) : List ℚ := df.rows.filterMap (·.x)

/-- `display_tracking['y'].dropna().values` of the heat-map view. -/
def yCoords (df : TrackingDF) : List ℚ := df.rows.filterMap (·.y)

/-- Heat-map zone metric: left-half share, `(x_coords < 60).sum()`
divided by `total = len(x_coords)`, times 100. -/
def leftPct (df : TrackingDF) : ℚ :=
  ((xCoords df).countP (fun v => decide (v < 60)) : ℚ) / (xCoords df).length * 100

/-- Heat-map zone metric: right-half share, `(x_coords >= 60).sum()`
over the same `total`. -/
def rightPct (df : TrackingDF) : ℚ :=
  ((xCoords df).countP (fun v => decide (60 ≤ v)) : ℚ) / (xCoords df).length * 100

/-- Heat-map zone metric: end-zone-area share
`((x_coords < 30) | (x_coords > 90)).sum()` over the same `total`. -/
def deepPct (df : TrackingDF) : ℚ :=
  ((xCoords df).countP (fun v => decide (v < 30) || decide (90 < v)) : ℚ) /
    (xCoords df).length * 100

/-- Heat-map zone metric as the code computes it: the middle-band count
`((y_coords > 20) & (y_coords < 33.3)).sum()` is divided by the *reused*
`total = len(x_coords)`, not by `len(y_coords)`. -/
def middlePct (df : TrackingDF) : ℚ :=
  ((yCoords df).countP (fun v => decide (20 < v) && decide (v < 33.3)) : ℚ) /
    (xCoords df).length * 100

/-- Modelled from the spec: the middle-band percentage taken over the
frames with a valid y coordinate, as section 4.3 of the spec states. -/
def specMiddlePct (df : TrackingDF) : ℚ :=
  ((yCoords df).countP (fun v => decide (20 < v) && decide (v < 33.3)) : ℚ) /
    (yCoords df).length * 100

/-- `format_draft_pick`: `none` marks the case in which the Python code
raises (`int()` applied to a missing `draft_overall_selection`). -/
def format_draft_pick (r : Prospect) : Option String :=
  match r.draft_round with
  | none => some "UDFA"
  | some rd =>
    match r.draft_overall_selection with
    | some pk => some ("R" ++ toString rd ++ " #" ++ toString pk)
    | none => none

/-- A cell of the comparison table: missing (NaN) or a string. -/
inductive Cell where
  | missing
  | str (s : String)
deriving DecidableEq, Repr

/-- Python `str.strip()` on a character list. -/
def trimChars (l : List Char) : List Char :=
  ((l.dropWhile Char.isWhitespace).reverse.dropWhile Char.isWhitespace).reverse

/-- Decimal digits to a natural number. -/
def digitsToNat (l : List Char) : Nat :=
  l.foldl (fun acc c => 10 * acc + (c.toNat - 48)) 0

/-- Leading sign of a Python float literal. -/
def parseSign : List Char → ℚ × List Char
  | '-' :: r => (-1, r)
  | '+' :: r => (1, r)
  | r => (1, r)

/-- Python `float` on a plain decimal literal: optional sign, digits,
optional fractional part; anything else fails. -/
def parseNumChars (l : List Char) : Option ℚ :=
  let sr := parseSign l
  let ip := sr.2.takeWhile Char.isDigit
  let l2 := sr.2.dropWhile Char.isDigit
  match l2 with
  | [] => if ip = [] then none else some (sr.1 * digitsToNat ip)
  | '.' :: r =>
    let fp := r.takeWhile Char.isDigit
    let l3 := r.dropWhile Char.isDigit
    if l3 = [] ∧ ¬(ip = [] ∧ fp = []) then
      some (sr.1 * ((digitsToNat ip : ℚ) + (digitsToNat fp : ℚ) / 10 ^ fp.length))
    else none
  | _ => none

/-- The per-cell pipeline of `highlight_cells`: skip NaN and the
sentinels 'N/A', em-dash and empty; strip all '%' and '#' characters
and surrounding whitespace; then try `float`. -/
def parseCell : Cell → Option ℚ
  | .missing => none
  | .str s =>
    if s = "N/A" ∨ s = "—" ∨ s = "" then none
    else parseNumChars (trimChars ((s.data.filter (fun c => c != '%')).filter (fun c => c != '#')))

/-- Style applied to the best cell. -/
def GREEN_STYLE : String := "background-color: #28a745; color: white; font-weight: bold"

/-- Style applied to near-best cells. -/
def LIGHT_STYLE : String := "background-color: #d4edda; color: #155724"

/-- One row of the comparison table: metric name then one cell per
selected player. -/
structure CompRow where
  metric : String
  cells : List Cell
deriving DecidableEq, Repr

/-- `metrics_config` lookup. -/
def lookupConfig (config : List (String × Bool)) (m : String) : Option Bool :=
  match config.find? (fun p => p.1 == m) with
  | some p => some p.2
  | none => none

/-- The `values`/`indices` loop of `highlight_cells`: 1-based indices
(position 0 holds the metric name) and parsed values of the parseable
cells. -/
def parsedPairsAux (i : Nat) : List Cell → List (Nat × ℚ)
  | [] => []
  | c :: cs =>
    match parseCell c with
    | some q => (i, q) :: parsedPairsAux (i + 1) cs
    | none => parsedPairsAux (i + 1) cs

/-- Parseable cells of a row with their row indices. -/
def parsedPairs (cells : List Cell) : List (Nat × ℚ) := parsedPairsAux 1 cells

/-- The style the loop body assigns to one parsed value. -/
def styleFor (hb : Bool) (vmin vmax best v : ℚ) : String :=
  if v = best then GREEN_STYLE
  else if hb = true ∧ best ≠ vmin then
    (if (0.7 : ℚ) < (v - vmin) / (best - vmin) then LIGHT_STYLE else "")
  else if hb = false ∧ best ≠ vmax then
    (if (0.7 : ℚ) < (vmax - v) / (vmax - best) then LIGHT_STYLE else "")
  else ""

/-- `highlight_cells` from `style_comparison_table`: unknown metrics and
rows with fewer than two parseable values come back unstyled. -/
def highlight_cells (config : List (String × Bool)) (row : CompRow) : List String :=
  let styles := List.replicate (1 + row.cells.length) ""
  match lookupConfig config row.metric with
  | none => styles
  | some hb =>
    let pairs := parsedPairs row.cells
    if pairs.length < 2 then styles
    else
      let best := if hb then listMax (pairs.map Prod.snd) else listMin (pairs.map Prod.snd)
      pairs.foldl
        (fun st p =>
          st.set p.1
            (styleFor hb (listMin (pairs.map Prod.snd)) (listMax (pairs.map Prod.snd)) best p.2))
        styles

/-- A frame with every column missing. -/
def blankFrame : Frame :=
  { ts := none, x := none, y := none, s := none, a := none, dis := none,
    dir := none, play1 := none, play2 := none }

/-- A frame carrying only a heading. -/
def dirFrame (d : Option ℚ) : Frame := { blankFrame with dir := d }

/-- A tracking dataframe in which every column exists. -/
def dfAllCols (rows : List Frame) : TrackingDF :=
  { rows := rows, hasTs := true, hasX := true, hasY := true, hasS := true,
    hasA := true, hasDis := true, hasDir := true, hasPlay1 := true, hasPlay2 := true }

/-- A prospect row with the given identity, category, composite rank
and RAS; the other fields are fixed. -/
def mkProspect (pid : Nat) (cat : String) (cr : Option ℚ) (ras : Option ℚ) : Prospect :=
  { player_id := pid, position := "CB", player_category := cat,
    draft_season := some 2024, draft_round := none, draft_overall_selection := none,
    RAS := ras, composite_rank := cr, athletic_potential_rank := none,
    college_production_rank := none, nfl_production_rank := none }

/-- Elite prospect, composite rank 1, RAS 5. -/
def pA : Prospect := mkProspect 1 "Elite" (some 1) (some 5)

/-- Elite prospect, composite rank 2, RAS 9. -/
def pB : Prospect := mkProspect 2 "Elite" (some 2) (some 9)

/-- Prospect in an unrecognized category. -/
def pW : Prospect := mkProspect 4 "Weird" (some 2) (some 5)

/-- Prospect with missing draft season, round, pick and RAS. -/
def pNone : Prospect := { mkProspect 9 "Elite" none none with draft_season := none }

/-- Heading sequence with a missing heading between 10° and 60°. -/
def dfGap : TrackingDF := dfAllCols [dirFrame (some 10), dirFrame none, dirFrame (some 60)]

/-- Heading sequence 10°, 60°, 65°. -/
def dfHeadings : TrackingDF :=
  dfAllCols [dirFrame (some 10), dirFrame (some 60), dirFrame (some 65)]

/-- Two frames with speeds 1 and 3 yards/sec. -/
def dfSpeed : TrackingDF :=
  dfAllCols [{ blankFrame with s := some 1 }, { blankFrame with s := some 3 }]

/-- Two frames in the middle band, only one with a valid x. -/
def dfZone : TrackingDF :=
  dfAllCols [{ blankFrame with x := some 0, y := some 25 }, { blankFrame with y := some 25 }]

/-! ### Helper lemmas: list maximum, minimum and mean -/

theorem le_foldl_max (l : List ℚ) (a : ℚ) : a ≤ l.foldl max a := by
  induction l generalizing a with
  | nil => exact le_refl a
  | cons b t ih => exact le_trans (le_max_left a b) (ih (max a b))

theorem le_foldl_max_of_mem {l : List ℚ} {x : ℚ} (a : ℚ) (h : x ∈ l) :
    x ≤ l.foldl max a := by
  induction l generalizing a with
  | nil => cases h
  | cons b t ih =>
    rcases List.mem_cons.mp h with rfl | hmem
    · exact le_trans (le_max_right a x) (le_foldl_max t (max a x))
    · exact ih (max a b) hmem

theorem foldl_max_mem (l : List ℚ) (a : ℚ) : l.foldl max a ∈ a :: l := by
  induction l generalizing a with
  | nil => exact List.mem_singleton.mpr rfl
  | cons b t ih =>
    have h := ih (max a b)
    rcases List.mem_cons.mp h with hEq | hmem
    · rcases max_choice a b with hab | hab
      · exact List.mem_cons.mpr (Or.inl (hEq.trans hab))
      · exact List.mem_cons.mpr (Or.inr (List.mem_cons.mpr (Or.inl (hEq.trans hab))))
    · exact List.mem_cons.mpr (Or.inr (List.mem_cons.mpr (Or.inr hmem)))

theorem foldl_min_le (l : List ℚ) (a : ℚ) : l.foldl min a ≤ a := by
  induction l generalizing a with
  | nil => exact le_refl a
  | cons b t ih => exact le_trans (ih (min a b)) (min_le_left a b)

theorem foldl_min_le_of_mem {l : List ℚ} {x : ℚ} (a : ℚ) (h : x ∈ l) :
    l.foldl min a ≤ x := by
  induction l generalizing a with
  | nil => cases h
  | cons b t ih =>
    rcases List.mem_cons.mp h with rfl | hmem
    · exact le_trans (foldl_min_le t (min a x)) (min_le_right a x)
    · exact ih (min a b) hmem

theorem foldl_min_mem (l : List ℚ) (a : ℚ) : l.foldl min a ∈ a :: l := by
  induction l generalizing a with
  | nil => exact List.mem_singleton.mpr rfl
  | cons b t ih =>
    have h := ih (min a b)
    rcases List.mem_cons.mp h with hEq | hmem
    · rcases min_choice a b with hab | hab
      · exact List.mem_cons.mpr (Or.inl (hEq.trans hab))
      · exact List.mem_cons.mpr (Or.inr (List.mem_cons.mpr (Or.inl (hEq.trans hab))))
    · exact List.mem_cons.mpr (Or.inr (List.mem_cons.mpr (Or.inr hmem)))

theorem le_listMax {l : List ℚ} {x : ℚ} (h : x ∈ l) : x ≤ listMax l := by
  match l with
  | [] => cases h
  | a :: t =>
    rcases List.mem_cons.mp h with rfl | hmem
    · exact le_foldl_max t x
    · exact le_foldl_max_of_mem a hmem

theorem listMax_mem {l : List ℚ} (h : l ≠ []) : listMax l ∈ l := by
  match l with
  | [] => exact absurd rfl h
  | a :: t => exact foldl_max_mem t a

theorem listMin_le {l : List ℚ} {x : ℚ} (h : x ∈ l) : listMin l ≤ x := by
  match l with
  | [] => cases h
  | a :: t =>
    rcases List.mem_cons.mp h with rfl | hmem
    · exact foldl_min_le t x
    · exact foldl_min_le_of_mem a hmem

theorem listMin_mem {l : List ℚ} (h : l ≠ []) : listMin l ∈ l := by
  match l with
  | [] => exact absurd rfl h
  | a :: t => exact foldl_min_mem t a

theorem length_pos_rat {l : List ℚ} (h : l ≠ []) : (0 : ℚ) < l.length := by
  have := List.length_pos.mpr h
  exact_mod_cast this

theorem listMean_le_listMax {l : List ℚ} (h : l ≠ []) : listMean l ≤ listMax l := by
  have hlen : (0 : ℚ) < l.length := length_pos_rat h
  have hsum : l.sum ≤ l.length • listMax l :=
    List.sum_le_card_nsmul l (listMax l) (fun x hx => le_listMax hx)
  rw [nsmul_eq_mul] at hsum
  rw [listMean, div_le_iff₀ hlen]
  calc l.sum ≤ (l.length : ℚ) * listMax l := hsum
    _ = listMax l * l.length := mul_comm _ _

theorem listMin_le_listMean {l : List ℚ} (h : l ≠ []) : listMin l ≤ listMean l := by
  have hlen : (0 : ℚ) < l.length := length_pos_rat h
  have hsum : l.length • listMin l ≤ l.sum :=
    List.card_nsmul_le_sum l (listMin l) (fun x hx => listMin_le hx)
  rw [nsmul_eq_mul] at hsum
  rw [listMean, le_div_iff₀ hlen]
  calc listMin l * (l.length : ℚ) = (l.length : ℚ) * listMin l := mul_comm _ _
    _ ≤ l.sum := hsum

/-! ### Helper lemmas: direction changes -/

theorem circDelta_shift (x y : ℚ) : circDelta (x + 360) (y + 360) = circDelta x y := by
  have h : y + 360 - (x + 360) = y - x := by ring
  rw [circDelta, circDelta, h]

theorem countDirChangesFrom_shift (l : List ℚ) (prev : ℚ) :
    countDirChangesFrom (prev + 360) (l.map (fun d => d + 360)) =
      countDirChangesFrom prev l := by
  induction l generalizing prev with
  | nil => rfl
  | cons a t ih =>
    simp only [List.map, countDirChangesFrom, circDelta_shift]
    rw [ih a]

theorem countDirChanges_shift (l : List ℚ) :
    countDirChanges (l.map (fun d => d + 360)) = countDirChanges l := by
  cases l with
  | nil => rfl
  | cons a t =>
    simp only [List.map, countDirChanges]
    exact countDirChangesFrom_shift t a

theorem countDirChangesFrom_eq_spec (l : List (Option ℚ)) (prev : ℚ)
    (h : ∀ x ∈ l, x ≠ none) :
    countDirChangesFrom prev (l.filterMap id) = specDirectionChangesFrom (some prev) l := by
  induction l generalizing prev with
  | nil => rfl
  | cons a t ih =>
    have ha := h a (List.mem_cons.mpr (Or.inl rfl))
    have ht : ∀ x ∈ t, x ≠ none := fun x hx => h x (List.mem_cons.mpr (Or.inr hx))
    match a, ha with
    | some d, _ =>
      simp only [List.filterMap, id, countDirChangesFrom, specDirectionChangesFrom,
        specCircDist, circDelta, abs_sub_comm prev d]
      rw [ih d ht]

theorem countDirChanges_eq_spec (l : List (Option ℚ)) (h : ∀ x ∈ l, x ≠ none) :
    countDirChanges (l.filterMap id) = specDirectionChanges l := by
  cases l with
  | nil => rfl
  | cons a t =>
    have ha := h a (List.mem_cons.mpr (Or.inl rfl))
    have ht : ∀ x ∈ t, x ≠ none := fun x hx => h x (List.mem_cons.mpr (Or.inr hx))
    match a, ha with
    | some d, _ =>
      simp only [List.filterMap, id, countDirChanges, specDirectionChanges]
      exact countDirChangesFrom_eq_spec t d ht

theorem filterMap_id_length_of_all_some (l : List (Option ℚ)) (h : ∀ x ∈ l, x ≠ none) :
    (l.filterMap id).length = l.length := by
  induction l with
  | nil => rfl
  | cons a t ih =>
    have ha := h a (List.mem_cons.mpr (Or.inl rfl))
    have ht : ∀ x ∈ t, x ≠ none := fun x hx => h x (List.mem_cons.mpr (Or.inr hx))
    match a, ha with
    | some d, _ =>
      simp only [List.filterMap, id, List.length_cons]
      rw [ih ht]

/-! ### C2: speed statistics -/

/-- C2: for every tracking-frame sequence with at least one non-missing
speed sample, `max_speed_mph`, `avg_speed_mph` and `min_speed_mph` are
the maximum, mean and minimum of the yards/sec samples multiplied by
2.045, and `max_speed_mph ≥ avg_speed_mph ≥ min_speed_mph`. -/
theorem speed_stats_ordered_and_scaled (df : TrackingDF)
    (hS : df.hasS = true) (hne : df.rows.filterMap (·.s) ≠ []) :
    (calculate_tracking_stats df).max_speed_mph =
        some (listMax (df.rows.filterMap (·.s)) * 2.045) ∧
    (calculate_tracking_stats df).avg_speed_mph =
        some (listMean (df.rows.filterMap (·.s)) * 2.045) ∧
    (calculate_tracking_stats df).min_speed_mph =
        some (listMin (df.rows.filterMap (·.s)) * 2.045) ∧
    listMean (df.rows.filterMap (·.s)) * 2.045 ≤
        listMax (df.rows.filterMap (·.s)) * 2.045 ∧
    listMin (df.rows.filterMap (·.s)) * 2.045 ≤
        listMean (df.rows.filterMap (·.s)) * 2.045 := by
  have hrows : df.rows ≠ [] := by
    intro h
    apply hne
    rw [h]
    rfl
  have hcond : df.hasS = true ∧ df.rows.filterMap (·.s) ≠ [] := ⟨hS, hne⟩
  refine ⟨?_, ?_, ?_, ?_, ?_⟩
  · simp only [calculate_tracking_stats, if_neg hrows, if_pos hcond]
  · simp only [calculate_tracking_stats, if_neg hrows, if_pos hcond]
  · simp only [calculate_tracking_stats, if_neg hrows, if_pos hcond]
  · exact mul_le_mul_of_nonneg_right (listMean_le_listMax hne) (by norm_num)
  · exact mul_le_mul_of_nonneg_right (listMin_le_listMean hne) (by norm_num)

/-- Witness for C2 at a two-frame input with speeds 1 and 3 yds/s. -/
theorem speed_stats_witness :
    (calculate_tracking_stats dfSpeed).max_speed_mph =
        some (listMax (dfSpeed.rows.filterMap (·.s)) * 2.045) ∧
    (calculate_tracking_stats dfSpeed).avg_speed_mph =
        some (listMean (dfSpeed.rows.filterMap (·.s)) * 2.045) ∧
    (calculate_tracking_stats dfSpeed).min_speed_mph =
        some (listMin (dfSpeed.rows.filterMap (·.s)) * 2.045) ∧
    listMean (dfSpeed.rows.filterMap (·.s)) * 2.045 ≤
        listMax (dfSpeed.rows.filterMap (·.s)) * 2.045 ∧
    listMin (dfSpeed.rows.filterMap (·.s)) * 2.045 ≤
        listMean (dfSpeed.rows.filterMap (·.s)) * 2.045 :=
  speed_stats_ordered_and_scaled dfSpeed rfl (by decide)

/-! ### C9: direction-change invariance -/

/-- C9: `direction_changes` is invariant under relabeling every heading
by +360°, and for a sequence with at most one frame the key is absent,
so the caller-displayed value `stats.get('direction_changes', 0)` is 0. -/
theorem direction_changes_shift_invariant (df : TrackingDF) :
    (calculate_tracking_stats (shiftDir df)).direction_changes =
      (calculate_tracking_stats df).direction_changes ∧
    (df.rows.length ≤ 1 → (calculate_tracking_stats df).direction_changes = none) ∧
    (df.rows.length ≤ 1 → displayedDirectionChanges df = 0) := by
  have key2 : df.rows.length ≤ 1 → (calculate_tracking_stats df).direction_changes = none := by
    intro h
    by_cases hrows : df.rows = []
    · simp [calculate_tracking_stats, hrows]
    · have hlen : (df.rows.filterMap (·.dir)).length ≤ 1 :=
        le_trans (List.length_filterMap_le _ _) h
      have hcond : ¬(df.hasDir = true ∧ 1 < (df.rows.filterMap (·.dir)).length) := by
        rintro ⟨-, hl⟩
        omega
      simp only [calculate_tracking_stats, if_neg hrows, if_neg hcond]
  have key1 : (calculate_tracking_stats (shiftDir df)).direction_changes =
      (calculate_tracking_stats df).direction_changes := by
    by_cases hrows : df.rows = []
    · simp [calculate_tracking_stats, shiftDir, hrows]
    · have hrows2 : (shiftDir df).rows ≠ [] := by
        simp only [shiftDir, ne_eq, List.map_eq_nil_iff]
        exact hrows
      have hdirs : (shiftDir df).rows.filterMap (·.dir) =
          ((df.rows.filterMap (·.dir)).map (fun d => d + 360)) := by
        simp only [shiftDir]
        rw [List.filterMap_map, List.map_filterMap]
        rfl
      simp only [calculate_tracking_stats, if_neg hrows, if_neg hrows2]
      rw [hdirs]
      simp [shiftDir, List.length_map, countDirChanges_shift]
  exact ⟨key1, key2, fun h => by rw [displayedDirectionChanges, key2 h]; rfl⟩

/-- Witness for C9 at a one-frame input. -/
theorem direction_changes_shift_witness :
    (calculate_tracking_stats (dfAllCols [dirFrame (some 10)])).direction_changes = none :=
  (direction_changes_shift_invariant (dfAllCols [dirFrame (some 10)])).2.1 (by decide)

/-! ### C1: direction changes versus the spec's consecutive-frame count -/

/-- Counterexample to C1: with headings [10°, missing, 60°] the code
pairs 10° with 60° across the gap and reports one direction change,
while the spec's consecutive-frame count is 0. -/
theorem direction_changes_gap_counterexample :
    (calculate_tracking_stats dfGap).direction_changes = some 1 ∧
    specDirectionChanges (dfGap.rows.map (·.dir)) = 0 ∧
    (calculate_tracking_stats dfGap).direction_changes ≠
      some (specDirectionChanges (dfGap.rows.map (·.dir))) := by
  have h1 : (calculate_tracking_stats dfGap).direction_changes = some 1 := by
    show some (countDirChangesFrom 10 [60]) = some 1
    norm_num [countDirChangesFrom, circDelta]
  have h2 : specDirectionChanges (dfGap.rows.map (·.dir)) = 0 := by decide
  refine ⟨h1, h2, ?_⟩
  rw [h1, h2]
  decide

/-- C1 (amended): when every frame's heading is non-missing (and at
least two frames exist), `direction_changes` equals the spec's count
over consecutive-frame heading pairs with circular distance above 45°. -/
theorem direction_changes_spec_of_no_missing (df : TrackingDF)
    (hD : df.hasDir = true) (hall : ∀ r ∈ df.rows, r.dir ≠ none)
    (h2 : 2 ≤ df.rows.length) :
    (calculate_tracking_stats df).direction_changes =
      some (specDirectionChanges (df.rows.map (·.dir))) := by
  have hrows : df.rows ≠ [] := by
    intro h
    rw [h] at h2
    simp at h2
  have hallm : ∀ x ∈ df.rows.map (·.dir), x ≠ none := by
    intro x hx
    rcases List.mem_map.mp hx with ⟨r, hr, rfl⟩
    exact hall r hr
  have hmap : df.rows.filterMap (·.dir) = (df.rows.map (·.dir)).filterMap id := by
    rw [List.filterMap_map]
    rfl
  have hlen : (df.rows.filterMap (·.dir)).length = df.rows.length := by
    rw [hmap, filterMap_id_length_of_all_some _ hallm, List.length_map]
  have hcond : df.hasDir = true ∧ 1 < (df.rows.filterMap (·.dir)).length :=
    ⟨hD, by rw [hlen]; omega⟩
  simp only [calculate_tracking_stats, if_neg hrows, if_pos hcond]
  rw [hmap, countDirChanges_eq_spec _ hallm]

/-- Witness for C1 (amended) at the spec's own example [10°, 60°, 65°]:
exactly one direction change. -/
theorem direction_changes_spec_witness :
    (calculate_tracking_stats dfHeadings).direction_changes = some 1 := by
  have h := direction_changes_spec_of_no_missing dfHeadings rfl (by decide) (by decide)
  rw [h]
  show some (specDirectionChangesFrom (some 10) [some 60, some 65]) = some 1
  norm_num [specDirectionChangesFrom, specCircDist]

/-! ### C7: key presence in the statistics mapping -/

/-- Counterexample to C7: the empty sequence yields an empty mapping
without `total_frames`, and `play_count` is present as 0 when the
'play_id' column exists with no non-missing value. -/
theorem stats_total_frames_counterexample :
    (calculate_tracking_stats (dfAllCols [])).total_frames = none ∧
    (calculate_tracking_stats (dfAllCols [blankFrame])).play_count = some 0 ∧
    (dfAllCols [blankFrame]).rows.filterMap (·.play1) = [] := by
  refine ⟨rfl, rfl, rfl⟩

/-- C7 (amended): `total_frames` equals the row count for every
non-empty sequence (the empty sequence yields the empty mapping); every
statistic other than `play_count` is omitted when its source column is
missing or lacks the values its guard requires; `play_count` is omitted
only when neither play column exists, and is 0 (not omitted) when the
'play_id' column exists but holds no non-missing value. -/
theorem stats_keys_presence (df : TrackingDF) :
    (df.rows ≠ [] → (calculate_tracking_stats df).total_frames = some df.rows.length) ∧
    (df.rows = [] → calculate_tracking_stats df = {}) ∧
    ((df.hasS = false ∨ df.rows.filterMap (·.s) = []) →
      (calculate_tracking_stats df).max_speed_mph = none ∧
      (calculate_tracking_stats df).avg_speed_mph = none ∧
      (calculate_tracking_stats df).min_speed_mph = none) ∧
    ((df.hasA = false ∨ df.rows.filterMap (·.a) = []) →
      (calculate_tracking_stats df).max_acceleration = none ∧
      (calculate_tracking_stats df).avg_acceleration = none) ∧
    ((df.hasDis = false ∨ df.rows.filterMap (·.dis) = []) →
      (calculate_tracking_stats df).total_distance = none ∧
      (calculate_tracking_stats df).avg_distance_per_frame = none) ∧
    ((df.hasTs = false ∨ (df.rows.filterMap (·.ts)).length ≤ 1) →
      (calculate_tracking_stats df).total_time_seconds = none) ∧
    ((df.hasDir = false ∨ (df.rows.filterMap (·.dir)).length ≤ 1) →
      (calculate_tracking_stats df).direction_changes = none) ∧
    ((df.hasPlay1 = false ∧ df.hasPlay2 = false) →
      (calculate_tracking_stats df).play_count = none) ∧
    ((df.rows ≠ [] ∧ df.hasPlay1 = true) →
      (calculate_tracking_stats df).play_count = some (nunique (df.rows.map (·.play1)))) := by
  by_cases hrows : df.rows = []
  · have hcalc : calculate_tracking_stats df = {} := by
      simp [calculate_tracking_stats, hrows]
    refine ⟨fun h => absurd hrows h, fun _ => hcalc, ?_, ?_, ?_, ?_, ?_, ?_, ?_⟩
    · intro _; rw [hcalc]; exact ⟨rfl, rfl, rfl⟩
    · intro _; rw [hcalc]; exact ⟨rfl, rfl⟩
    · intro _; rw [hcalc]; exact ⟨rfl, rfl⟩
    · intro _; rw [hcalc]
    · intro _; rw [hcalc]
    · intro _; rw [hcalc]
    · rintro ⟨h, -⟩; exact absurd hrows h
  · refine ⟨?_, fun h => absurd h hrows, ?_, ?_, ?_, ?_, ?_, ?_, ?_⟩
    · intro _
      simp only [calculate_tracking_stats, if_neg hrows]
    · intro h
      have hcond : ¬(df.hasS = true ∧ df.rows.filterMap (·.s) ≠ []) := by
        rintro ⟨h1, h2⟩
        rcases h with h | h
        · rw [h] at h1; simp at h1
        · exact h2 h
      refine ⟨?_, ?_, ?_⟩ <;> simp only [calculate_tracking_stats, if_neg hrows, if_neg hcond]
    · intro h
      have hcond : ¬(df.hasA = true ∧ df.rows.filterMap (·.a) ≠ []) := by
        rintro ⟨h1, h2⟩
        rcases h with h | h
        · rw [h] at h1; simp at h1
        · exact h2 h
      refine ⟨?_, ?_⟩ <;> simp only [calculate_tracking_stats, if_neg hrows, if_neg hcond]
    · intro h
      have hcond : ¬(df.hasDis = true ∧ df.rows.filterMap (·.dis) ≠ []) := by
        rintro ⟨h1, h2⟩
        rcases h with h | h
        · rw [h] at h1; simp at h1
        · exact h2 h
      refine ⟨?_, ?_⟩ <;> simp only [calculate_tracking_stats, if_neg hrows, if_neg hcond]
    · intro h
      have hcond : ¬(df.hasTs = true ∧ 1 < (df.rows.filterMap (·.ts)).length) := by
        rintro ⟨h1, h2⟩
        rcases h with h | h
        · rw [h] at h1; simp at h1
        · omega
      simp only [calculate_tracking_stats, if_neg hrows, if_neg hcond]
    · intro h
      have hcond : ¬(df.hasDir = true ∧ 1 < (df.rows.filterMap (·.dir)).length) := by
        rintro ⟨h1, h2⟩
        rcases h with h | h
        · rw [h] at h1; simp at h1
        · omega
      simp only [calculate_tracking_stats, if_neg hrows, if_neg hcond]
    · rintro ⟨h1, h2⟩
      have hc1 : ¬(df.hasPlay1 = true) := by rw [h1]; simp
      have hc2 : ¬(df.hasPlay2 = true) := by rw [h2]; simp
      simp only [calculate_tracking_stats, if_neg hrows, if_neg hc1, if_neg hc2]
    · rintro ⟨-, h2⟩
      simp only [calculate_tracking_stats, if_neg hrows, if_pos h2]

/-- Witness for C7 at a concrete two-frame input. -/
theorem stats_keys_presence_witness :
    (calculate_tracking_stats dfSpeed).total_frames = some 2 :=
  (stats_keys_presence dfSpeed).1 (by decide)

/-! ### C3: heat-map zone percentages -/

/-- C3 evaluated at the failing input: with x-coordinates [0] and
y-coordinates [25, 25], the code reports a middle-band share of 200%
(dividing the y-zone count by the valid-x total), while the spec's
valid-y denominator gives 100%. -/
theorem middle_band_percentage_failing_eval :
    middlePct dfZone = 200 ∧ specMiddlePct dfZone = 100 ∧
    middlePct dfZone ≠ specMiddlePct dfZone := by
  have hy : yCoords dfZone = [25, 25] := rfl
  have hcount : (yCoords dfZone).countP (fun v => decide (20 < v) && decide (v < 33.3)) = 2 := by
    rw [hy]
    norm_num [List.countP_cons, List.countP_nil, Bool.and_eq_true, decide_eq_true_eq]
  have hxlen : (xCoords dfZone).length = 1 := by decide
  have hylen : (yCoords dfZone).length = 2 := by decide
  have h1 : middlePct dfZone = 200 := by
    rw [middlePct, hcount, hxlen]
    norm_num
  have h2 : specMiddlePct dfZone = 100 := by
    rw [specMiddlePct, hcount, hylen]
    norm_num
  refine ⟨h1, h2, ?_⟩
  rw [h1, h2]
  norm_num

/-! ### C8: the draft-pick formatter -/

/-- C8 evaluated at the failing input: with `draft_round` present and
`draft_overall_selection` missing, `format_draft_pick` raises (modelled
as `none`) instead of returning a string; the UDFA and fully-drafted
cases return the documented strings. -/
theorem format_draft_pick_failing_eval :
    format_draft_pick { pNone with draft_round := some 1 } = none ∧
    format_draft_pick pNone = some "UDFA" ∧
    format_draft_pick
        { pNone with draft_round := some 1, draft_overall_selection := some 15 } =
      some "R1 #15" := by
  refine ⟨rfl, rfl, by decide⟩

/-! ### C5: empty category selection -/

/-- Counterexample to C5: with an Elite row and a row in an
unrecognized category, an empty selection keeps both rows (no filter),
while selecting all available categories (just "Elite") drops the
unrecognized row. -/
theorem empty_category_selection_counterexample :
    filter_pipeline [pA, pW] "All" [] (2000, 2030) (0, 10) = [pA, pW] ∧
    filter_pipeline [pA, pW] "All" (availableCategories [pA, pW]) (2000, 2030) (0, 10) = [pA] ∧
    filter_pipeline [pA, pW] "All" [] (2000, 2030) (0, 10) ≠
      filter_pipeline [pA, pW] "All" (availableCategories [pA, pW]) (2000, 2030) (0, 10) := by
  refine ⟨by decide, by decide, by decide⟩

/-- C5 (amended): an empty category selection applies no category
filter; this coincides with selecting all available categories whenever
every category occurring in the table is among the available ones
(which can fail when recognized and unrecognized categories co-occur). -/
theorem empty_category_selection_no_filter (full : List Prospect) (pos : String)
    (yr : Int × Int) (rr : ℚ × ℚ)
    (h : ∀ r ∈ full, (availableCategories full).contains r.player_category = true) :
    filter_pipeline full pos [] yr rr =
      filter_pipeline full pos (availableCategories full) yr rr := by
  have hmem : ∀ r ∈ applyPosition pos full, r ∈ full := by
    intro r hr
    rw [applyPosition] at hr
    by_cases hpos : pos = "All"
    · rw [if_pos hpos] at hr; exact hr
    · rw [if_neg hpos] at hr; exact (List.mem_filter.mp hr).1
  have hcat : applyCategory [] (applyPosition pos full) =
      applyCategory (availableCategories full) (applyPosition pos full) := by
    by_cases havail : availableCategories full = []
    · rw [havail]
    · have e1 : applyCategory [] (applyPosition pos full) = applyPosition pos full := by
        simp [applyCategory]
      have e2 : applyCategory (availableCategories full) (applyPosition pos full) =
          applyPosition pos full := by
        rw [applyCategory, if_neg havail]
        exact List.filter_eq_self.mpr (fun r hr => h r (hmem r hr))
      rw [e1, e2]
  rw [filter_pipeline, filter_pipeline, hcat]

/-- Witness for C5 on a table whose categories are all recognized. -/
theorem empty_category_selection_witness :
    filter_pipeline [pA, pB] "All" [] (2000, 2030) (0, 10) =
      filter_pipeline [pA, pB] "All" (availableCategories [pA, pB]) (2000, 2030) (0, 10) :=
  empty_category_selection_no_filter [pA, pB] "All" (2000, 2030) (0, 10) (by decide)

/-! ### C6: missing RAS retained, missing draft season excluded -/

/-- C6: a row with missing RAS passes the RAS filter for any bounds,
and a row with missing draft season is excluded by the year stage
exactly when the year filter is active (≥ 2 distinct years). -/
theorem missing_ras_retained_missing_year_excluded (l : List Prospect) (r : Prospect)
    (yr : Int × Int) (rr : ℚ × ℚ) :
    (r.RAS = none → (r ∈ applyRAS rr l ↔ r ∈ l)) ∧
    (r.draft_season = none →
      (r ∈ applyYear yr l ↔ r ∈ l ∧ ¬ yearFilterActive l)) := by
  constructor
  · intro hras
    simp only [applyRAS, List.mem_filter]
    constructor
    · exact fun h => h.1
    · intro h
      refine ⟨h, ?_⟩
      rw [hras]
  · intro hseason
    by_cases hact : yearFilterActive l
    · simp only [applyYear, if_pos hact, List.mem_filter]
      constructor
      · rintro ⟨-, hp⟩
        rw [hseason] at hp
        simp at hp
      · rintro ⟨-, hna⟩
        exact absurd hact hna
    · simp only [applyYear, if_neg hact]
      exact ⟨fun h => ⟨h, hact⟩, fun h => h.1⟩

/-- Witness for C6 at a concrete row with missing RAS and season. -/
theorem missing_ras_retained_witness :
    (pNone ∈ applyRAS (3, 4) [pNone] ↔ pNone ∈ [pNone]) ∧
    (pNone ∈ applyYear (2000, 2001) [pNone] ↔
      pNone ∈ [pNone] ∧ ¬ yearFilterActive [pNone]) :=
  ⟨(missing_ras_retained_missing_year_excluded [pNone] pNone (2000, 2001) (3, 4)).1 rfl,
   (missing_ras_retained_missing_year_excluded [pNone] pNone (2000, 2001) (3, 4)).2 rfl⟩

/-! ### C4: rankings-table grouping and ordering -/

theorem optLeB_total (a b : Option ℚ) : optLeB a b = true ∨ optLeB b a = true := by
  cases a <;> cases b <;> simp [optLeB] <;> exact le_total _ _

theorem optLeB_trans (a b c : Option ℚ) (h1 : optLeB a b = true) (h2 : optLeB b c = true) :
    optLeB a c = true := by
  cases a <;> cases b <;> cases c <;>
    simp [optLeB, decide_eq_true_eq] at * <;>
    exact le_trans h1 h2

theorem optGeB_total (a b : Option ℚ) : optGeB a b = true ∨ optGeB b a = true := by
  cases a <;> cases b <;> simp [optGeB] <;> exact le_total _ _

theorem optGeB_trans (a b c : Option ℚ) (h1 : optGeB a b = true) (h2 : optGeB b c = true) :
    optGeB a c = true := by
  cases a <;> cases b <;> cases c <;>
    simp [optGeB, decide_eq_true_eq] at * <;>
    exact le_trans h2 h1

instance (k : SortKey) : IsTotal Prospect (keyRel k) := ⟨by
  intro a b
  cases k <;> simp only [keyRel, keyLeB] <;>
    first
      | exact optLeB_total _ _
      | exact optGeB_total _ _⟩

instance (k : SortKey) : IsTrans Prospect (keyRel k) := ⟨by
  intro a b c h1 h2
  cases k <;> simp only [keyRel, keyLeB] at * <;>
    first
      | exact optLeB_trans _ _ _ h1 h2
      | exact optGeB_trans _ _ _ h1 h2⟩

theorem gtLeB_iff (a b : Prospect) :
    gtLeB a b = true ↔
      (categoryOrderIdx a.player_category < categoryOrderIdx b.player_category ∨
       (categoryOrderIdx a.player_category = categoryOrderIdx b.player_category ∧
        optLeB a.composite_rank b.composite_rank = true)) := by
  unfold gtLeB
  split_ifs with hlt hgt
  · simp [hlt]
  · constructor
    · intro h; simp at h
    · rintro (h | ⟨h, -⟩) <;> omega
  · have heq : categoryOrderIdx a.player_category = categoryOrderIdx b.player_category := by
      omega
    simp [heq]

instance : IsTotal Prospect gtRel := ⟨by
  intro a b
  show gtLeB a b = true ∨ gtLeB b a = true
  rw [gtLeB_iff, gtLeB_iff]
  rcases Nat.lt_trichotomy (categoryOrderIdx a.player_category)
      (categoryOrderIdx b.player_category) with h | h | h
  · exact Or.inl (Or.inl h)
  · rcases optLeB_total a.composite_rank b.composite_rank with ho | ho
    · exact Or.inl (Or.inr ⟨h, ho⟩)
    · exact Or.inr (Or.inr ⟨h.symm, ho⟩)
  · exact Or.inr (Or.inl h)⟩

instance : IsTrans Prospect gtRel := ⟨by
  intro a b c h1 h2
  have h1r := (gtLeB_iff a b).mp h1
  have h2r := (gtLeB_iff b c).mp h2
  show gtLeB a c = true
  rw [gtLeB_iff]
  rcases h1r with h1r | ⟨he1, ho1⟩
  · rcases h2r with h2r | ⟨he2, -⟩
    · exact Or.inl (by omega)
    · exact Or.inl (by omega)
  · rcases h2r with h2r | ⟨he2, ho2⟩
    · exact Or.inl (by omega)
    · exact Or.inr ⟨he1.trans he2, optLeB_trans _ _ _ ho1 ho2⟩⟩

/-- Counterexample to C4: two Elite rows with composite ranks 1 and 2
and RAS 5 and 9; under the "RAS" (descending) sort key the table
formatter still emits them in composite-rank order 5-then-9, which is
not RAS-descending. -/
theorem rankings_sort_key_counterexample :
    rankings_table_rows SortKey.ras [pA, pB] = [pA, pB] ∧
    ¬ (rankings_table_rows SortKey.ras [pA, pB]).Pairwise
        (fun a b => a.player_category = b.player_category → keyRel SortKey.ras a b) := by
  have hout : rankings_table_rows SortKey.ras [pA, pB] = [pA, pB] := by decide
  refine ⟨hout, ?_⟩
  rw [hout]
  intro hp
  have h := (List.pairwise_cons.mp hp).1 pB (List.mem_cons.mpr (Or.inl rfl)) rfl
  simp only [keyRel, keyLeB, optGeB, pA, pB, mkProspect, decide_eq_true_eq] at h
  norm_num at h

/-- C4 (amended): for every table and sort key, the formatter's output
is a permutation of the table, its category display indices are
nondecreasing (so unrecognized categories come last), and within each
category rows are ordered by composite rank ascending with missing
ranks last; the chosen sort key does not determine the within-group
order. -/
theorem rankings_grouped_by_category_rank (k : SortKey) (df : List Prospect) :
    (rankings_table_rows k df).Perm df ∧
    (rankings_table_rows k df).Pairwise (fun a b =>
      categoryOrderIdx a.player_category ≤ categoryOrderIdx b.player_category) ∧
    (rankings_table_rows k df).Pairwise (fun a b =>
      a.player_category = b.player_category →
        optLeB a.composite_rank b.composite_rank = true) := by
  have hsorted : (rankings_table_rows k df).Pairwise gtRel :=
    List.sorted_insertionSort gtRel (List.insertionSort (keyRel k) df)
  refine ⟨?_, ?_, ?_⟩
  · exact (List.perm_insertionSort gtRel _).trans (List.perm_insertionSort (keyRel k) df)
  · refine hsorted.imp ?_
    intro a b hab
    rcases (gtLeB_iff a b).mp hab with h | ⟨h, -⟩
    · exact le_of_lt h
    · exact le_of_eq h
  · refine hsorted.imp ?_
    intro a b hab heq
    rcases (gtLeB_iff a b).mp hab with h | ⟨-, ho⟩
    · rw [heq] at h
      omega
    · exact ho

/-- Witness for C4 (amended) at a concrete three-row table. -/
theorem rankings_grouped_witness :
    (rankings_table_rows SortKey.compositeRank [pB, pW, pA]).Perm [pB, pW, pA] :=
  (rankings_grouped_by_category_rank SortKey.compositeRank [pB, pW, pA]).1

/-! ### C10: the comparison-table highlighter -/

theorem parsedPairsAux_mem (cs : List Cell) (i j : Nat) (q : ℚ)
    (h : (j, q) ∈ parsedPairsAux i cs) :
    i ≤ j ∧ ∃ c, cs[j - i]? = some c ∧ parseCell c = some q := by
  induction cs generalizing i with
  | nil => cases h
  | cons c cs ih =>
    simp only [parsedPairsAux] at h
    cases hpc : parseCell c with
    | some q0 =>
      rw [hpc] at h
      rcases List.mem_cons.mp h with heq | hmem
      · have hj : j = i ∧ q = q0 := ⟨congrArg Prod.fst heq, congrArg Prod.snd heq⟩
        rcases hj with ⟨rfl, rfl⟩
        refine ⟨le_refl j, c, ?_, hpc⟩
        rw [Nat.sub_self]
        simp
      · rcases ih (i + 1) hmem with ⟨hle, c', hc', hp'⟩
        refine ⟨by omega, c', ?_, hp'⟩
        rw [show j - i = (j - (i + 1)) + 1 from by omega, List.getElem?_cons_succ]
        exact hc'
    | none =>
      rw [hpc] at h
      rcases ih (i + 1) h with ⟨hle, c', hc', hp'⟩
      refine ⟨by omega, c', ?_, hp'⟩
      rw [show j - i = (j - (i + 1)) + 1 from by omega, List.getElem?_cons_succ]
      exact hc'

theorem foldl_set_getElem_untouched (f : Nat × ℚ → String) (ps : List (Nat × ℚ))
    (st : List String) (j : Nat) (h : ∀ p ∈ ps, p.1 ≠ j) :
    (ps.foldl (fun s p => s.set p.1 (f p)) st)[j]? = st[j]? := by
  induction ps generalizing st with
  | nil => rfl
  | cons p ps ih =>
    rw [List.foldl_cons]
    rw [ih (st.set p.1 (f p)) (fun q hq => h q (List.mem_cons.mpr (Or.inr hq)))]
    exact List.getElem?_set_ne (h p (List.mem_cons.mpr (Or.inl rfl)))

/-- C10: a cell can be highlighted only when at least two of the row's
values parse as numbers — with fewer than two the whole row comes back
unstyled — and a cell whose value fails to parse is never styled (it is
silently excluded from the best-value computation). -/
theorem highlight_requires_two_numeric (config : List (String × Bool)) (row : CompRow) :
    ((parsedPairs row.cells).length < 2 →
      highlight_cells config row = List.replicate (1 + row.cells.length) "") ∧
    (∀ i c, row.cells[i]? = some c → parseCell c = none →
      (highlight_cells config row)[i + 1]? = some "") := by
  constructor
  · intro hlt
    simp only [highlight_cells]
    cases hcfg : lookupConfig config row.metric with
    | none => simp only [hcfg]
    | some hb =>
      simp only [hcfg]
      rw [if_pos hlt]
  · intro i c hc hp
    have hilen : i < row.cells.length := (List.getElem?_eq_some.mp hc).1
    have hrep : (List.replicate (1 + row.cells.length) "")[i + 1]? = some "" := by
      rw [List.getElem?_replicate, if_pos (by omega)]
    simp only [highlight_cells]
    cases hcfg : lookupConfig config row.metric with
    | none =>
      simp only [hcfg]
      exact hrep
    | some hb =>
      simp only [hcfg]
      by_cases hlt : (parsedPairs row.cells).length < 2
      · rw [if_pos hlt]
        exact hrep
      · rw [if_neg hlt]
        rw [foldl_set_getElem_untouched]
        · exact hrep
        · intro p hpmem hcontra
          rcases parsedPairsAux_mem row.cells 1 p.1 p.2 hpmem with ⟨-, c', hc', hp'⟩
          rw [hcontra, Nat.add_sub_cancel] at hc'
          have hcc : c = c' := by
            have := hc.symm.trans hc'
            exact Option.some_injective _ this
          rw [← hcc] at hp'
          rw [hp] at hp'
          cases hp'

/-- Witness for C10: a row in which only zero values parse comes back
fully unstyled. -/
theorem highlight_requires_two_numeric_witness :
    highlight_cells [("RAS", true)] ⟨"RAS", [Cell.str "N/A", Cell.str "abc"]⟩ =
      List.replicate 3 "" :=
  (highlight_requires_two_numeric [("RAS", true)]
    ⟨"RAS", [Cell.str "N/A", Cell.str "abc"]⟩).1 (by decide)
